import Mathlib

/-!
Verification of the `ScaffoldRunner` multi-processing sampler driver
(`genie/sample_scaffold.py`).

The Python code is shallowly embedded as follows:
* Python strings that undergo character-level operations (paths, motif
  names) are `List Char` (`PyStr`); dictionary keys, which are only ever
  compared for equality, stay `String`.
* Parameter dictionaries (`args`, `params`, `constants`, tasks) are
  association lists `List (String × Value)` looked up with `pyLookup`,
  which mirrors `dict.__getitem__` (a missing key is a `KeyError`).
* The value universe of this program is: strings, ints, `None` and the
  explicit motif-name lists (lists of strings), captured by `Value`.
  (`scale`/`strength` are only ever passed through untouched, so nothing
  depends on their numeric type; any `Value` can sit in those slots.)
* Fallible code returns `Except PyError _`; `PyError.keyError` embeds
  `KeyError` (the concrete realization of the spec's `ConfigurationError`
  for a missing required parameter) and `PyError.typeError` embeds
  `TypeError`.
* The filesystem seen by `glob.glob` is a function from a directory path
  to `Option` of its entries; `none` models an unreadable or nonexistent
  directory.  CPython's `glob` swallows the `OSError` raised by
  `os.scandir` on such a directory and yields no matches.
* The external collaborators `load_pretrained_model` and
  `ScaffoldSampler.sample` are observed through an event trace (`Event`).
* The `while num_samples > 0` loop is embedded with an explicit fuel
  argument (`taskLoop`); `none` marks fuel exhaustion, so termination
  statements quantify over fuel.
-/

deriving instance DecidableEq for Except

/-- A Python string, as a list of characters. -/
abbrev PyStr := List Char

/-- The values this program stores in its parameter dictionaries:
strings, ints, `None`, and explicit motif-name lists (lists of strings). -/
inductive Value where
  | vStr (s : PyStr)
  | vInt (n : Int)
  | vNone
  | vList (l : List PyStr)
deriving DecidableEq

/-- The Python exceptions this code can raise: `KeyError` on a missing
dictionary key (the realization of the spec's `ConfigurationError` for a
missing required parameter) and `TypeError` on an ill-typed primitive
operation. -/
inductive PyError where
  | keyError (k : String)
  | typeError
deriving DecidableEq

/-- A parameter dictionary (`args` / `params` in the source). -/
abbrev Params := List (String × Value)

/-- A task descriptor: the dictionary `{'motif_name': ...}` built by
`create_tasks`. -/
abbrev PyTask := List (String × Value)

/-- The constants dictionary built by `create_constants`. -/
abbrev Constants := List (String × Value)

/-- The filesystem visible to `glob.glob`: maps a directory path to its
list of entry names, `none` when the directory is unreadable or absent. -/
abbrev FS := PyStr → Option (List PyStr)

/-- `d[k]` on an association-list dictionary: first binding wins,
`none` is a `KeyError`. -/
def pyLookup : List (String × Value) → String → Option Value
  | [], _ => none
  | (k, v) :: rest, key => if k = key then some v else pyLookup rest key

/-- Python `str.split(sep)` for a one-character separator: splits at every
occurrence, keeping empty pieces; always returns at least one piece. -/
def pySplit (sep : Char) : PyStr → List PyStr
  | [] => [[]]
  | c :: rest =>
    match pySplit sep rest with
    | [] => [[]]
    | w :: ws => if c = sep then [] :: w :: ws else (c :: w) :: ws

/-- `os.path.join(d, p)` for POSIX paths as used here: an absolute second
component wins; otherwise a `/` is inserted unless `d` is empty or
already ends in `/`. -/
def osPathJoin (d p : PyStr) : PyStr :=
  if p.head? = some '/' then p
  else if d = [] ∨ List.isSuffixOf ['/'] d then d ++ p
  else d ++ '/' :: p

/-- Whether `glob`'s pattern `*.pdb` matches a directory entry: the name
must end in `.pdb`, and `glob` never matches hidden entries (a leading
dot) with a `*` pattern. -/
def matchStarPdb (f : PyStr) : Bool :=
  (f.head? != some '.') && List.isSuffixOf (".pdb".toList) f

/-- `glob.glob(os.path.join(d, '*.pdb'))`: the entries of `d` matching
`*.pdb`, each returned joined back onto `d`.  An unreadable or missing
directory yields no matches (CPython's `glob` suppresses the `OSError`
from `os.scandir`). -/
def globPdb (fs : FS) (d : PyStr) : List PyStr :=
  match fs d with
  | none => []
  | some files => (files.filter matchStarPdb).map (fun f => osPathJoin d f)

/-- `filepath.split('/')[-1].split('.')[0]` from `create_tasks`:
the portion of the last path component before its first dot. -/
def motifIdent (path : PyStr) : PyStr :=
  (pySplit '.' ((pySplit '/' path).getLastD [])).headD []

/-- Python iteration (`for x in v`) over a `Value`: a list yields its
elements, a string yields its characters as one-character strings,
`None` and ints are not iterable (`TypeError`). -/
def pyIter : Value → Except PyError (List Value)
  | .vList l => .ok (l.map Value.vStr)
  | .vStr s => .ok (s.map (fun c => Value.vStr [c]))
  | .vInt _ => .error .typeError
  | .vNone => .error .typeError

/-- The task dictionary `{'motif_name': v}`. -/
def mkTask (v : Value) : PyTask := [("motif_name", v)]

/-- `ScaffoldRunner.create_tasks`.  Reads `args["motif_name"]`; when it
is not `None` the code iterates over it directly, otherwise it scans
`args["datadir"]` for `*.pdb` files and derives each name with
`filepath.split('/')[-1].split('.')[0]`.  One task dictionary is built
per name, in order. -/
def create_tasks (args : Params) (fs : FS) : Except PyError (List PyTask) :=
  match pyLookup args "motif_name" with
  | none => .error (.keyError "motif_name")
  | some v =>
    if v = .vNone then
      match pyLookup args "datadir" with
      | none => .error (.keyError "datadir")
      | some (.vStr d) =>
        .ok (((globPdb fs d).map motifIdent).map (fun s => mkTask (.vStr s)))
      | some _ => .error .typeError
    else
      match pyIter v with
      | .error e => .error e
      | .ok names => .ok (names.map mkTask)

/-- The fixed list of keys `create_constants` projects out of `params`,
in source order. -/
def requiredNames : List String :=
  ["rootdir", "name", "epoch", "scale", "strength",
   "outdir", "num_samples", "batch_size", "datadir", "structures"]

/-- The list comprehension `[(name, params[name]) for name in names]`:
evaluated left to right, raising `KeyError` at the first absent key. -/
def selectKeys (params : Params) : List String → Except PyError Constants
  | [] => .ok []
  | n :: ns =>
    match pyLookup params n with
    | none => .error (.keyError n)
    | some v =>
      match selectKeys params ns with
      | .error e => .error e
      | .ok rest => .ok ((n, v) :: rest)

/-- `ScaffoldRunner.create_constants`:
`dict([(name, params[name]) for name in names])` over `requiredNames`. -/
def create_constants (params : Params) : Except PyError Constants :=
  selectKeys params requiredNames

/-- State-threaded form of `create_constants`.  Every operation in the
source body — the list literal of names, the key lookups and the `dict`
construction — reads but never writes, so threading the ambient state
(the caller's `params` store and the filesystem) through each of them
returns both unchanged next to the value `create_constants` computes. -/
def create_constants_st (params : Params) (w : FS) :
    Except PyError Constants × Params × FS :=
  (create_constants params, params, w)

/-- Comma-joined single-quoted renderings of list elements, as in
Python's rendering of a list of strings. -/
def reprJoin : List PyStr → PyStr
  | [] => []
  | [s] => '\'' :: s ++ ['\'']
  | s :: rest => ('\'' :: s ++ ['\'']) ++ ',' :: ' ' :: reprJoin rest

/-- Python `str(v)` for the values of this program, as used by
`'{}.pdb'.format(task['motif_name'])`.  Strings render as themselves,
ints in decimal, `None` as `None`; a list of strings renders with the
`repr` of each element, as Python's `str` does for containers. -/
def valueStr : Value → PyStr
  | .vStr s => s
  | .vInt n => (toString n).toList
  | .vNone => "None".toList
  | .vList l => '[' :: reprJoin l ++ [']']

/-- The `params` dictionary handed to `ScaffoldSampler.sample` each
iteration, with the source's key names (`prfx` stands for the source key
`prefix`). -/
structure SampleParams where
  filepath : PyStr
  scale : Value
  strength : Value
  num_samples : Int
  outdir : Value
  prfx : Value
  offset : Int
  structures : Value
deriving DecidableEq

/-- Observable calls `ScaffoldRunner.execute` makes on its external
collaborators: one `load` per `load_pretrained_model` call (recording the
arguments and target device) and one `sample` per
`ScaffoldSampler.sample` call. -/
inductive Event where
  | load (rootdir modelName epoch : Value) (device : String)
  | sample (p : SampleParams)
deriving DecidableEq

/-- Whether an event is a `load_pretrained_model` call. -/
def isLoad : Event → Bool
  | .load _ _ _ _ => true
  | .sample _ => false

/-- The batch size requested by a sample event (0 for a load event). -/
def evCount : Event → Int
  | .sample p => p.num_samples
  | .load _ _ _ _ => 0

/-- The offset passed by a sample event (0 for a load event). -/
def evOffset : Event → Int
  | .sample p => p.offset
  | .load _ _ _ _ => 0

/-- The body of one `while` iteration up to the `sampler.sample(params)`
call: computes `batch_size = min(constants['batch_size'], num_samples)`
and builds the `params` dictionary, performing the source's dictionary
lookups in evaluation order.  `min` on a non-int and the `os.path.join`
on a non-string directory raise `TypeError`.  The second source lookup of
`task['motif_name']` (for `'prefix'`) and of `constants['num_samples']`
(for `'offset'`) reuse the values already read: the dictionaries are
never written, so repeated lookups agree. -/
def mkSampleParams (c : Params) (t : PyTask) (od : Value) (remaining : Int) :
    Except PyError SampleParams :=
  match pyLookup c "batch_size" with
  | none => .error (.keyError "batch_size")
  | some (.vInt b0) =>
    match pyLookup c "datadir" with
    | none => .error (.keyError "datadir")
    | some dv =>
      match pyLookup t "motif_name" with
      | none => .error (.keyError "motif_name")
      | some mv =>
        match dv with
        | .vStr d =>
          match pyLookup c "scale" with
          | none => .error (.keyError "scale")
          | some sc =>
            match pyLookup c "strength" with
            | none => .error (.keyError "strength")
            | some st =>
              match pyLookup c "num_samples" with
              | none => .error (.keyError "num_samples")
              | some (.vInt n) =>
                match pyLookup c "structures" with
                | none => .error (.keyError "structures")
                | some su =>
                  .ok { filepath := osPathJoin d (valueStr mv ++ ".pdb".toList)
                        scale := sc
                        strength := st
                        num_samples := min b0 remaining
                        outdir := od
                        prfx := mv
                        offset := n - remaining
                        structures := su }
              | some _ => .error .typeError
        | _ => .error .typeError
  | some _ => .error .typeError

/-- The `while num_samples > 0` loop of `ScaffoldRunner.execute` for one
task, with `remaining` the loop variable `num_samples` and an explicit
fuel bound on the number of iterations.  Returns the emitted sample
events, the exception aborting the loop (if any), and the final value of
the loop variable; `none` means the fuel ran out before the loop exited. -/
def taskLoop (c : Params) (t : PyTask) (od : Value) (remaining : Int)
    (fuel : Nat) : Option (List Event × Option PyError × Int) :=
  if 0 < remaining then
    match fuel with
    | 0 => none
    | fuel' + 1 =>
      match mkSampleParams c t od remaining with
      | .error e => some ([], some e, remaining)
      | .ok p =>
        match taskLoop c t od (remaining - p.num_samples) fuel' with
        | none => none
        | some (evs, err, fin) => some (Event.sample p :: evs, err, fin)
  else some ([], none, remaining)

/-- One iteration of the `for task in tqdm(tasks, ...)` body: reads
`constants['outdir']` and `constants['num_samples']`, then runs the
sampling loop.  A non-int `num_samples` fails at the `> 0` comparison of
the `while` head with `TypeError`. -/
def runTask (c : Params) (t : PyTask) (fuel : Nat) :
    Option (List Event × Option PyError) :=
  match pyLookup c "outdir" with
  | none => some ([], some (.keyError "outdir"))
  | some od =>
    match pyLookup c "num_samples" with
    | none => some ([], some (.keyError "num_samples"))
    | some (.vInt n) =>
      (taskLoop c t od n fuel).map (fun r => (r.1, r.2.1))
    | some _ => some ([], some .typeError)

/-- The `for task in tqdm(tasks, ...)` loop: tasks run in order; an
exception aborts the remaining tasks and propagates. -/
def runTasks (c : Params) : List PyTask → Nat → Option (List Event × Option PyError)
  | [], _ => some ([], none)
  | t :: ts, fuel =>
    match runTask c t fuel with
    | none => none
    | some (evs, some e) => some (evs, some e)
    | some (evs, none) =>
      match runTasks c ts fuel with
      | none => none
      | some (evs', r) => some (evs ++ evs', r)

/-- `ScaffoldRunner.execute`: reads `constants['rootdir']`,
`constants['name']` and `constants['epoch']` (in argument order, so the
first missing one raises before the model loads), performs the single
`load_pretrained_model(...).eval().to(device)` call, wraps the model in a
`ScaffoldSampler` (no observable effect), then iterates the tasks. -/
def execute (c : Params) (tasks : List PyTask) (device : String)
    (fuel : Nat) : Option (List Event × Option PyError) :=
  match pyLookup c "rootdir" with
  | none => some ([], some (.keyError "rootdir"))
  | some rd =>
    match pyLookup c "name" with
    | none => some ([], some (.keyError "name"))
    | some nm =>
      match pyLookup c "epoch" with
      | none => some ([], some (.keyError "epoch"))
      | some ep =>
        match runTasks c tasks fuel with
        | none => none
        | some (evs, err) => some (Event.load rd nm ep device :: evs, err)

/-- The numeric skeleton of the sampling loop: the `(batch_size, offset)`
pairs it issues, starting from `remaining` out of a total of `N`, and the
final value of the loop variable.  Same control structure and fuel
discipline as `taskLoop`. -/
def specLoop (B N : Int) (fuel : Nat) (r : Int) :
    Option (List (Int × Int) × Int) :=
  if 0 < r then
    match fuel with
    | 0 => none
    | fuel' + 1 =>
      match specLoop B N fuel' (r - min B r) with
      | none => none
      | some (l, fin) => some ((min B r, N - r) :: l, fin)
  else some ([], r)

/-- The sample-event payload issued under a well-formed configuration:
directory `d`, motif `m`, pass-through values `sc`/`st`/`su`/`od`, batch
size `b` at offset `off`. -/
def sampleOf (d m : PyStr) (sc st su od : Value) (b off : Int) : SampleParams :=
  { filepath := osPathJoin d (m ++ ".pdb".toList)
    scale := sc
    strength := st
    num_samples := b
    outdir := od
    prfx := Value.vStr m
    offset := off
    structures := su }

/-! ### Helper lemmas: `selectKeys` -/

/-- If some requested key is absent, `selectKeys` raises `KeyError` on an
absent requested key (the first one in request order). -/
theorem selectKeys_missing (p : Params) :
    ∀ ns, (∃ n ∈ ns, pyLookup p n = none) →
      ∃ k, selectKeys p ns = .error (.keyError k) ∧ k ∈ ns ∧ pyLookup p k = none := by
  intro ns
  induction ns with
  | nil => intro h; simp at h
  | cons n rest ih =>
    intro h
    cases hn : pyLookup p n with
    | none => exact ⟨n, by simp [selectKeys, hn], by simp, hn⟩
    | some v =>
      obtain ⟨m, hm, hml⟩ := h
      rcases List.mem_cons.mp hm with rfl | hmr
      · rw [hn] at hml; cases hml
      · obtain ⟨k, hk1, hk2, hk3⟩ := ih ⟨m, hmr, hml⟩
        exact ⟨k, by simp [selectKeys, hn, hk1], by simp [hk2], hk3⟩

/-- If every requested key is present, `selectKeys` returns the
association list of requested keys, in request order, each bound to its
value in `p`. -/
theorem selectKeys_present (p : Params) :
    ∀ ns, (∀ n ∈ ns, (pyLookup p n).isSome) →
      ∃ c, selectKeys p ns = .ok c ∧ c.map Prod.fst = ns ∧
        ∀ n v, (n, v) ∈ c → pyLookup p n = some v := by
  intro ns
  induction ns with
  | nil => intro _; exact ⟨[], rfl, rfl, by simp⟩
  | cons n rest ih =>
    intro h
    cases hn : pyLookup p n with
    | none => have := h n (by simp); rw [hn] at this; cases this
    | some v =>
      obtain ⟨c, hc1, hc2, hc3⟩ := ih (fun m hm => h m (by simp [hm]))
      refine ⟨(n, v) :: c, by simp [selectKeys, hn, hc1], by simp [hc2], ?_⟩
      intro m w hmw
      rcases List.mem_cons.mp hmw with heq | hmem
      · obtain ⟨rfl, rfl⟩ := Prod.mk.injEq .. ▸ heq
        simpa using hn
      · exact hc3 m w hmem

/-- `selectKeys` depends only on the lookups of the requested keys. -/
theorem selectKeys_ext (p p' : Params) :
    ∀ ns, (∀ n ∈ ns, pyLookup p n = pyLookup p' n) →
      selectKeys p ns = selectKeys p' ns := by
  intro ns
  induction ns with
  | nil => intro _; rfl
  | cons n rest ih =>
    intro h
    have hn := h n (by simp)
    have hr := ih (fun m hm => h m (by simp [hm]))
    simp only [selectKeys, ← hn, hr]

/-! ### Concrete fixtures for witnesses -/

/-- A filesystem with no readable directory. -/
def fsEmpty : FS := fun _ => none

/-- A filesystem whose `data` directory holds `a.pdb`, `b.pdb`, `c.txt`. -/
def demoFS : FS := fun d =>
  if d = "data".toList then
    some ["a.pdb".toList, "b.pdb".toList, "c.txt".toList]
  else none

/-- A parameter dictionary carrying every required key. -/
def demoParams : Params :=
  [("rootdir", .vStr "results".toList), ("name", .vStr "base".toList),
   ("epoch", .vInt 40), ("scale", .vInt 1), ("strength", .vInt 0),
   ("outdir", .vStr "out".toList), ("num_samples", .vInt 5),
   ("batch_size", .vInt 2), ("datadir", .vStr "data".toList),
   ("structures", .vNone)]

/-- A single scaffold task for motif `1prw`. -/
def demoTask : PyTask := [("motif_name", Value.vStr "1prw".toList)]

/-! ### Claim C2: explicit motif list -/

/-- C2: when `params["motif_name"]` is a non-empty explicit list of
names, `create_tasks` returns exactly one task per listed name, in the
listed order, each task being the dictionary mapping `motif_name` to
that name. -/
theorem create_tasks_explicit_list (args : Params) (fs : FS) (l : List PyStr)
    (hm : pyLookup args "motif_name" = some (.vList l)) (hne : l ≠ []) :
    create_tasks args fs = .ok (l.map (fun s => mkTask (.vStr s))) ∧
    (l.map (fun s => mkTask (.vStr s))).length = l.length ∧
    l.map (fun s => mkTask (.vStr s)) ≠ [] := by
  refine ⟨?_, by simp, by simpa using hne⟩
  simp [create_tasks, hm, pyIter, List.map_map, Function.comp]

/-- C2 at a concrete input: the list `["m1", "m2"]` yields exactly the
two tasks, in order. -/
theorem create_tasks_explicit_list_witness :
    pyLookup [("motif_name", Value.vList ["m1".toList, "m2".toList])] "motif_name"
      = some (.vList ["m1".toList, "m2".toList]) ∧
    (["m1".toList, "m2".toList] : List PyStr) ≠ [] ∧
    (create_tasks [("motif_name", Value.vList ["m1".toList, "m2".toList])] fsEmpty
      = .ok [mkTask (.vStr "m1".toList), mkTask (.vStr "m2".toList)] ∧
     ([mkTask (Value.vStr "m1".toList), mkTask (Value.vStr "m2".toList)]).length = 2) := by
  refine ⟨by decide, by decide, ?_, by decide⟩
  have h := create_tasks_explicit_list
    [("motif_name", Value.vList ["m1".toList, "m2".toList])] fsEmpty
    ["m1".toList, "m2".toList] (by decide) (by decide)
  simpa using h.1

/-! ### Claim C10: a plain string motif name is iterated character by
character -/

/-- C10: when `params["motif_name"]` is a plain string (as the
command-line surface produces, `--motif_name` having type `str`),
`create_tasks` iterates it character by character and returns one task
per character, not one task for the whole name. -/
theorem create_tasks_string_iterates_chars (args : Params) (fs : FS) (s : PyStr)
    (hm : pyLookup args "motif_name" = some (.vStr s)) :
    create_tasks args fs = .ok (s.map (fun c => mkTask (.vStr [c]))) ∧
    (s.map (fun c => mkTask (.vStr [c]))).length = s.length := by
  refine ⟨?_, by simp⟩
  simp [create_tasks, hm, pyIter, List.map_map, Function.comp]

/-- C10 at a concrete input: the string `"5IUS"` yields four
single-character tasks, not one task named `5IUS`. -/
theorem create_tasks_string_iterates_chars_witness :
    pyLookup [("motif_name", Value.vStr "5IUS".toList)] "motif_name"
      = some (.vStr "5IUS".toList) ∧
    (create_tasks [("motif_name", Value.vStr "5IUS".toList)] fsEmpty
      = .ok ("5IUS".toList.map (fun c => mkTask (.vStr [c]))) ∧
     ("5IUS".toList.map (fun c => mkTask (Value.vStr [c]))).length = "5IUS".toList.length) ∧
    ("5IUS".toList.map (fun c => mkTask (Value.vStr [c]))).length = 4 ∧
    create_tasks [("motif_name", Value.vStr "5IUS".toList)] fsEmpty
      ≠ .ok [mkTask (.vStr "5IUS".toList)] := by
  refine ⟨by decide, ?_, by decide, ?_⟩
  · exact create_tasks_string_iterates_chars
      [("motif_name", Value.vStr "5IUS".toList)] fsEmpty "5IUS".toList (by decide)
  · decide

/-! ### Claim C5: unreadable data directory -/

/-- C5, counterexample to the claim as stated: with `motif_name = None`
and an unreadable `datadir`, `create_tasks` does not raise — it returns
`ok []`.  CPython's `glob.glob` swallows the `OSError` from scanning an
unreadable or missing directory and produces no matches, so no exception
of any kind (in particular no configuration error) reaches the caller. -/
theorem create_tasks_unreadable_ok_cex :
    create_tasks [("motif_name", Value.vNone), ("datadir", Value.vStr "data".toList)]
      fsEmpty = .ok [] := by
  decide

/-- C5 as amended: with `motif_name = None` and an unreadable `datadir`,
`create_tasks` returns the empty task list (and hence no error). -/
theorem create_tasks_unreadable_empty (args : Params) (fs : FS) (d : PyStr)
    (hm : pyLookup args "motif_name" = some .vNone)
    (hd : pyLookup args "datadir" = some (.vStr d))
    (hfs : fs d = none) :
    create_tasks args fs = .ok [] := by
  simp [create_tasks, hm, hd, globPdb, hfs]

/-- C5 (amended) at a concrete input. -/
theorem create_tasks_unreadable_empty_witness :
    pyLookup [("motif_name", Value.vNone), ("datadir", Value.vStr "d2".toList)] "motif_name"
      = some Value.vNone ∧
    pyLookup [("motif_name", Value.vNone), ("datadir", Value.vStr "d2".toList)] "datadir"
      = some (.vStr "d2".toList) ∧
    fsEmpty "d2".toList = none ∧
    create_tasks [("motif_name", Value.vNone), ("datadir", Value.vStr "d2".toList)]
      fsEmpty = .ok [] := by
  refine ⟨by decide, by decide, rfl, ?_⟩
  exact create_tasks_unreadable_empty
    [("motif_name", Value.vNone), ("datadir", Value.vStr "d2".toList)]
    fsEmpty "d2".toList (by decide) (by decide) rfl

/-! ### Claim C4: missing required key in `create_constants` -/

/-- C4: if any required constant key is absent from `params`,
`create_constants` fails, raising the missing-required-parameter error
(`KeyError` on a required key — the spec's `ConfigurationError`). -/
theorem create_constants_missing_key (params : Params)
    (h : ∃ n ∈ requiredNames, pyLookup params n = none) :
    ∃ k, create_constants params = .error (.keyError k) ∧
      k ∈ requiredNames ∧ pyLookup params k = none :=
  selectKeys_missing params requiredNames h

/-- C4 at a concrete input: `demoParams` without its `epoch` binding. -/
theorem create_constants_missing_key_witness :
    (∃ n ∈ requiredNames, pyLookup (demoParams.filter (fun kv => kv.1 ≠ "epoch")) n = none) ∧
    ∃ k, create_constants (demoParams.filter (fun kv => kv.1 ≠ "epoch"))
        = .error (.keyError k) ∧
      k ∈ requiredNames ∧ pyLookup (demoParams.filter (fun kv => kv.1 ≠ "epoch")) k = none := by
  refine ⟨by decide, ?_⟩
  exact create_constants_missing_key (demoParams.filter (fun kv => kv.1 ≠ "epoch")) (by decide)

/-! ### Claim C8: `create_constants` projects exactly the required keys -/

/-- C8: when every required key is present, `create_constants` returns a
dictionary whose keys are exactly the ten required names (in the
source's order) with each key bound to its value in `params`. -/
theorem create_constants_projects_keys (params : Params)
    (h : ∀ n ∈ requiredNames, (pyLookup params n).isSome) :
    ∃ c, create_constants params = .ok c ∧ c.map Prod.fst = requiredNames ∧
      ∀ n v, (n, v) ∈ c → pyLookup params n = some v :=
  selectKeys_present params requiredNames h

/-- C8 at a concrete input. -/
theorem create_constants_projects_keys_witness :
    (∀ n ∈ requiredNames, (pyLookup demoParams n).isSome) ∧
    ∃ c, create_constants demoParams = .ok c ∧ c.map Prod.fst = requiredNames ∧
      ∀ n v, (n, v) ∈ c → pyLookup demoParams n = some v := by
  refine ⟨by decide, ?_⟩
  exact create_constants_projects_keys demoParams (by decide)

/-! ### Claim C9: `create_constants` is pure -/

/-- C9: `create_constants` performs no I/O and does not mutate `params`:
its state-threaded embedding returns the parameter store and the
filesystem unchanged, and its result depends only on the lookups of the
required keys (in particular not on the filesystem). -/
theorem create_constants_pure (p p' : Params) (w : FS) :
    (create_constants_st p w).2.1 = p ∧ (create_constants_st p w).2.2 = w ∧
    ((∀ n ∈ requiredNames, pyLookup p n = pyLookup p' n) →
      create_constants p = create_constants p') := by
  refine ⟨rfl, rfl, fun h => ?_⟩
  exact selectKeys_ext p p' requiredNames h

/-- C9 at a concrete input: an extra, unrequired binding does not change
the result, and the state components come back unchanged. -/
theorem create_constants_pure_witness :
    (create_constants_st demoParams demoFS).2.1 = demoParams ∧
    (create_constants_st demoParams demoFS).2.2 = demoFS ∧
    ((∀ n ∈ requiredNames,
        pyLookup demoParams n = pyLookup (demoParams ++ [("extra", Value.vNone)]) n) ∧
      create_constants demoParams = create_constants (demoParams ++ [("extra", Value.vNone)])) := by
  have h := create_constants_pure demoParams (demoParams ++ [("extra", Value.vNone)]) demoFS
  exact ⟨h.1, h.2.1, by decide, h.2.2 (by decide)⟩

/-! ### Helper lemmas: `pySplit` -/

/-- `str.split` always returns at least one piece. -/
theorem pySplit_ne_nil (sep : Char) (s : PyStr) : pySplit sep s ≠ [] := by
  induction s with
  | nil => simp [pySplit]
  | cons c rest ih =>
    unfold pySplit
    cases h : pySplit sep rest with
    | nil => simp
    | cons w ws => by_cases hc : c = sep <;> simp [hc]

/-- Splitting a string that does not contain the separator returns the
string as the single piece. -/
theorem pySplit_no_sep (sep : Char) (s : PyStr) (h : sep ∉ s) :
    pySplit sep s = [s] := by
  induction s with
  | nil => rfl
  | cons c rest ih =>
    have hc : ¬c = sep := fun hcs => h (hcs ▸ List.mem_cons_self c rest)
    have hr : sep ∉ rest := fun hm => h (List.mem_cons_of_mem c hm)
    unfold pySplit
    rw [ih hr]
    simp [hc]

/-- Splitting distributes over an occurrence of the separator. -/
theorem pySplit_append_sep (sep : Char) (xs ys : PyStr) :
    pySplit sep (xs ++ sep :: ys) = pySplit sep xs ++ pySplit sep ys := by
  induction xs with
  | nil =>
    obtain ⟨w, ws, hw⟩ := List.exists_cons_of_ne_nil (pySplit_ne_nil sep ys)
    simp [pySplit, hw]
  | cons c xs' ih =>
    obtain ⟨w, ws, hw⟩ := List.exists_cons_of_ne_nil (pySplit_ne_nil sep xs')
    have : pySplit sep ((c :: xs') ++ sep :: ys)
        = match pySplit sep (xs' ++ sep :: ys) with
          | [] => [[]]
          | w :: ws => if c = sep then [] :: w :: ws else (c :: w) :: ws := rfl
    rw [this, ih, hw]
    by_cases hc : c = sep <;> simp [pySplit, hw, hc]

/-- The first piece of a split is the longest separator-free prefix
(`split(sep)[0]`). -/
theorem pySplit_headD (sep : Char) (s : PyStr) :
    (pySplit sep s).headD [] = s.takeWhile (fun c => c != sep) := by
  induction s with
  | nil => rfl
  | cons c rest ih =>
    obtain ⟨w, ws, hw⟩ := List.exists_cons_of_ne_nil (pySplit_ne_nil sep rest)
    rw [hw] at ih
    simp only [List.headD_cons] at ih
    by_cases hc : c = sep
    · simp [pySplit, hw, hc]
    · simp [pySplit, hw, hc, List.takeWhile_cons, ih]

/-- `getLastD` looks only at a nonempty right factor. -/
theorem getLastD_append_right (l₁ l₂ : List PyStr) (h : l₂ ≠ []) :
    (l₁ ++ l₂).getLastD [] = l₂.getLastD [] := by
  rw [List.getLastD_eq_getLast?, List.getLastD_eq_getLast?,
    List.getLast?_append_of_ne_nil l₁ h]

/-- `filepath.split('/')[-1].split('.')[0]` applied to
`os.path.join(d, f)` for a slash-free file name `f` is the portion of
`f` before its first dot. -/
theorem motifIdent_join (d f : PyStr) (hf : ('/' : Char) ∉ f) (hne : f ≠ []) :
    motifIdent (osPathJoin d f) = f.takeWhile (fun c => c != '.') := by
  have last_of : ∀ xs : PyStr, (pySplit '/' (xs ++ '/' :: f)).getLastD [] = f := by
    intro xs
    rw [pySplit_append_sep, pySplit_no_sep '/' f hf, getLastD_append_right _ _ (by simp)]
    rfl
  unfold osPathJoin
  split
  · next habs =>
    exfalso
    obtain ⟨c, rest, rfl⟩ := List.exists_cons_of_ne_nil hne
    simp only [List.head?_cons, Option.some.injEq] at habs
    exact hf (habs ▸ List.mem_cons_self c rest)
  · split
    · next hd =>
      rcases hd with rfl | hsuf
      · rw [List.nil_append]
        unfold motifIdent
        rw [pySplit_no_sep '/' f hf]
        exact pySplit_headD '.' f
      · obtain ⟨t, ht⟩ := List.isSuffixOf_iff_suffix.mp hsuf
        unfold motifIdent
        rw [← ht, List.append_assoc, List.singleton_append, last_of t]
        exact pySplit_headD '.' f
    · unfold motifIdent
      rw [last_of d]
      exact pySplit_headD '.' f

/-! ### Claim C3: directory scan -/

/-- The identifier the claim asserts: the file's base name with the
extension stripped, in the usual `os.path.splitext` sense — everything
before the final dot (the whole name when there is no dot).  This
definition follows the claim's words, for comparison against the code's
`motifIdent`. -/
def stripExt (f : PyStr) : PyStr :=
  if '.' ∈ f then ((f.reverse.dropWhile (fun c => c != '.')).drop 1).reverse
  else f

/-- C3, counterexample to the claim as stated: for a data directory
containing exactly `a.b.pdb` (which matches the `*.pdb` convention), the
code's identifier is `a` — the base name cut at the *first* dot — while
the base name with the extension stripped is `a.b`. -/
theorem motif_ident_not_ext_strip_cex :
    create_tasks [("motif_name", Value.vNone), ("datadir", Value.vStr "data".toList)]
        (fun dd => if dd = "data".toList then some ["a.b.pdb".toList] else none)
      = .ok [mkTask (.vStr "a".toList)] ∧
    stripExt "a.b.pdb".toList = "a.b".toList ∧
    "a".toList ≠ "a.b".toList := by
  refine ⟨by decide, by decide, by decide⟩

/-- C3 as amended: with `motif_name = None`, `create_tasks` enumerates
exactly the entries of `params["datadir"]` matching the `*.pdb`
convention and derives each task's identifier as the portion of the
file's base name before its *first* dot (which equals the base name with
the extension stripped whenever the stem itself contains no dot). -/
theorem create_tasks_dirscan (args : Params) (fs : FS) (d : PyStr)
    (files : List PyStr)
    (hm : pyLookup args "motif_name" = some .vNone)
    (hd : pyLookup args "datadir" = some (.vStr d))
    (hfs : fs d = some files)
    (hsl : ∀ f ∈ files, ('/' : Char) ∉ f) :
    create_tasks args fs = .ok ((files.filter matchStarPdb).map
      (fun f => mkTask (.vStr (f.takeWhile (fun c => c != '.'))))) := by
  have hmatch_ne : ∀ f : PyStr, matchStarPdb f = true → f ≠ [] := by
    intro f h hnil
    subst hnil
    exact absurd h (by decide)
  have key : ∀ f ∈ files.filter matchStarPdb,
      mkTask (Value.vStr (motifIdent (osPathJoin d f)))
        = mkTask (Value.vStr (f.takeWhile (fun c => c != '.'))) := by
    intro f hfm
    obtain ⟨hmem, hmatch⟩ := List.mem_filter.mp hfm
    rw [motifIdent_join d f (hsl f hmem) (hmatch_ne f hmatch)]
  simp only [create_tasks, hm, hd, globPdb, hfs, List.map_map, if_true]
  refine congrArg Except.ok (List.map_congr_left ?_)
  intro f hfm
  simpa [Function.comp] using key f hfm

/-- C3 (amended) at the claim's own example: files `a.pdb`, `b.pdb`,
`c.txt` yield exactly the task identifiers `a` and `b`. -/
theorem create_tasks_dirscan_witness :
    pyLookup [("motif_name", Value.vNone), ("datadir", Value.vStr "data".toList)]
        "motif_name" = some Value.vNone ∧
    pyLookup [("motif_name", Value.vNone), ("datadir", Value.vStr "data".toList)]
        "datadir" = some (.vStr "data".toList) ∧
    demoFS "data".toList
      = some ["a.pdb".toList, "b.pdb".toList, "c.txt".toList] ∧
    (∀ f ∈ ["a.pdb".toList, "b.pdb".toList, "c.txt".toList], ('/' : Char) ∉ f) ∧
    create_tasks [("motif_name", Value.vNone), ("datadir", Value.vStr "data".toList)]
        demoFS
      = .ok ((["a.pdb".toList, "b.pdb".toList, "c.txt".toList].filter matchStarPdb).map
        (fun f => mkTask (.vStr (f.takeWhile (fun c => c != '.'))))) ∧
    (["a.pdb".toList, "b.pdb".toList, "c.txt".toList].filter matchStarPdb).map
        (fun f => mkTask (Value.vStr (f.takeWhile (fun c => c != '.'))))
      = [mkTask (.vStr "a".toList), mkTask (.vStr "b".toList)] := by
  refine ⟨by decide, by decide, by decide, by decide, ?_, by decide⟩
  exact create_tasks_dirscan
    [("motif_name", Value.vNone), ("datadir", Value.vStr "data".toList)]
    demoFS "data".toList ["a.pdb".toList, "b.pdb".toList, "c.txt".toList]
    (by decide) (by decide) (by decide) (by decide)


/-! ### Helper lemmas: the numeric loop skeleton `specLoop` -/

/-- A non-positive remaining count exits the loop at once. -/
theorem specLoop_nonpos (B N : Int) (fuel : Nat) (r : Int) (h : r ≤ 0) :
    specLoop B N fuel r = some ([], r) := by
  unfold specLoop
  rw [if_neg (by omega)]

/-- With a positive remaining count and no fuel, the loop is cut off. -/
theorem specLoop_zero_pos (B N : Int) (r : Int) (h : 0 < r) :
    specLoop B N 0 r = none := by
  unfold specLoop
  rw [if_pos h]

/-- One unfolding of the loop with a positive remaining count. -/
theorem specLoop_succ_pos (B N : Int) (fuel : Nat) (r : Int) (h : 0 < r) :
    specLoop B N (fuel + 1) r
      = match specLoop B N fuel (r - min B r) with
        | none => none
        | some (l, fin) => some ((min B r, N - r) :: l, fin) := by
  conv_lhs => unfold specLoop
  rw [if_pos h]

/-- Loop invariant: the issued batch sizes plus the final loop-variable
value account exactly for the starting count. -/
theorem specLoop_sum (B N : Int) :
    ∀ (fuel : Nat) (r : Int) (l : List (Int × Int)) (fin : Int),
      specLoop B N fuel r = some (l, fin) →
        (l.map Prod.fst).sum + fin = r := by
  intro fuel
  induction fuel with
  | zero =>
    intro r l fin h
    by_cases hr : 0 < r
    · rw [specLoop_zero_pos B N r hr] at h; cases h
    · rw [specLoop_nonpos B N 0 r (by omega)] at h
      simp only [Option.some.injEq, Prod.mk.injEq] at h
      obtain ⟨h1, h2⟩ := h
      subst h1; subst h2
      simp
  | succ fuel ih =>
    intro r l fin h
    by_cases hr : 0 < r
    · rw [specLoop_succ_pos B N fuel r hr] at h
      cases heq : specLoop B N fuel (r - min B r) with
      | none => rw [heq] at h; cases h
      | some p =>
        obtain ⟨l', fin'⟩ := p
        rw [heq] at h
        simp only [Option.some.injEq, Prod.mk.injEq] at h
        obtain ⟨h1, h2⟩ := h
        subst h1; subst h2
        have hs := ih (r - min B r) l' fin' heq
        simp only [List.map_cons, List.sum_cons]
        omega
    · rw [specLoop_nonpos B N _ r (by omega)] at h
      simp only [Option.some.injEq, Prod.mk.injEq] at h
      obtain ⟨h1, h2⟩ := h
      subst h1; subst h2
      simp

/-- Loop invariant: every offset equals the total requested before that
batch, i.e. `N` minus the remaining count at the start of the batch. -/
theorem specLoop_offset_take (B N : Int) :
    ∀ (fuel : Nat) (r : Int) (l : List (Int × Int)) (fin : Int),
      specLoop B N fuel r = some (l, fin) →
        ∀ i (hi : i < l.length),
          (l.get ⟨i, hi⟩).2 = (N - r) + ((l.take i).map Prod.fst).sum := by
  intro fuel
  induction fuel with
  | zero =>
    intro r l fin h
    by_cases hr : 0 < r
    · rw [specLoop_zero_pos B N r hr] at h; cases h
    · rw [specLoop_nonpos B N 0 r (by omega)] at h
      simp only [Option.some.injEq, Prod.mk.injEq] at h
      obtain ⟨h1, _⟩ := h
      subst h1
      intro i hi
      cases hi
  | succ fuel ih =>
    intro r l fin h
    by_cases hr : 0 < r
    · rw [specLoop_succ_pos B N fuel r hr] at h
      cases heq : specLoop B N fuel (r - min B r) with
      | none => rw [heq] at h; cases h
      | some p =>
        obtain ⟨l', fin'⟩ := p
        rw [heq] at h
        simp only [Option.some.injEq, Prod.mk.injEq] at h
        obtain ⟨h1, _⟩ := h
        subst h1
        intro i hi
        cases i with
        | zero => simp
        | succ j =>
          have hj : j < l'.length := Nat.lt_of_succ_lt_succ hi
          have hrec := ih (r - min B r) l' fin' heq j hj
          simp only [List.get_cons_succ, List.take_succ_cons, List.map_cons,
            List.sum_cons, hrec]
          omega
    · rw [specLoop_nonpos B N _ r (by omega)] at h
      simp only [Option.some.injEq, Prod.mk.injEq] at h
      obtain ⟨h1, _⟩ := h
      subst h1
      intro i hi
      cases hi

/-- Ceiling-division step: removing one batch of `min bn rn` from `rn`
reduces `⌈rn / bn⌉` by exactly one. -/
theorem ceil_step (bn rn : Nat) (hb : 1 ≤ bn) (hr : 1 ≤ rn) :
    (rn - min bn rn + (bn - 1)) / bn + 1 = (rn + (bn - 1)) / bn := by
  rcases le_or_lt rn bn with h | h
  · have hmin : min bn rn = rn := min_eq_right h
    rw [hmin]
    have h0 : rn - rn + (bn - 1) = bn - 1 := by omega
    rw [h0, Nat.div_eq_of_lt (by omega)]
    have h3 : (rn + (bn - 1)) / bn = 1 :=
      Nat.div_eq_of_lt_le (by omega) (by omega)
    omega
  · have hmin : min bn rn = bn := min_eq_left (le_of_lt h)
    rw [hmin]
    have h0 : rn - bn + (bn - 1) = rn - 1 := by omega
    have h1 : rn + (bn - 1) = (rn - 1) + bn := by omega
    rw [h0, h1, Nat.add_div_right _ (by omega)]

/-- Master characterization of the sampling loop for a nonnegative
starting count `r` and positive batch bound `B`, given enough fuel: the
loop terminates with final loop variable `0` and issues exactly
`⌈r / B⌉` batches, batch `i` requesting `min B (r - B*i)` at offset
`(N - r) + B*i`, every offset staying below the starting total. -/
theorem specLoop_master (B N : Int) (hB : 1 ≤ B) :
    ∀ (fuel : Nat) (r : Int), 0 ≤ r → r.toNat ≤ fuel →
      ∃ l, specLoop B N fuel r = some (l, 0) ∧
        l.length = (r.toNat + (B.toNat - 1)) / B.toNat ∧
        ∀ i (hi : i < l.length),
          l.get ⟨i, hi⟩ = (min B (r - B * i), (N - r) + B * i) ∧
            B * (i : Int) < r := by
  intro fuel
  induction fuel with
  | zero =>
    intro r h0 hf
    have hr0 : r = 0 := by omega
    subst hr0
    refine ⟨[], specLoop_nonpos B N 0 0 le_rfl, ?_, ?_⟩
    · have hd : (0 + (B.toNat - 1)) / B.toNat = 0 := Nat.div_eq_of_lt (by omega)
      simpa using hd.symm
    · intro i hi; cases hi
  | succ fuel ih =>
    intro r h0 hf
    by_cases hr : 0 < r
    · have hb1 : 1 ≤ min B r := by omega
      have hble : min B r ≤ r := min_le_right B r
      have h0' : 0 ≤ r - min B r := by omega
      have hf' : (r - min B r).toNat ≤ fuel := by omega
      obtain ⟨l', hl', hlen', hget'⟩ := ih (r - min B r) h0' hf'
      refine ⟨(min B r, N - r) :: l', ?_, ?_, ?_⟩
      · rw [specLoop_succ_pos B N fuel r hr, hl']
      · simp only [List.length_cons, hlen']
        have harg : (r - min B r).toNat = r.toNat - min B.toNat r.toNat := by
          omega
        rw [harg]
        exact ceil_step B.toNat r.toNat (by omega) (by omega)
      · intro i hi
        cases i with
        | zero =>
          constructor
          · simp
          · simpa using hr
        | succ j =>
          have hj : j < l'.length := Nat.lt_of_succ_lt_succ hi
          obtain ⟨hg, hlt⟩ := hget' j hj
          have hjnn : (0 : Int) ≤ B * (j : Int) :=
            mul_nonneg (by omega) (by positivity)
          have hrpos' : 0 < r - min B r := by omega
          have hminB : min B r = B := by omega
          constructor
          · simp only [List.get_cons_succ, hg, Prod.mk.injEq]
            constructor <;> (push_cast; rw [mul_add, mul_one]; omega)
          · push_cast
            rw [mul_add, mul_one]
            omega
    · have hr0 : r = 0 := by omega
      subst hr0
      refine ⟨[], specLoop_nonpos B N _ 0 le_rfl, ?_, ?_⟩
      · have hd : (0 + (B.toNat - 1)) / B.toNat = 0 := Nat.div_eq_of_lt (by omega)
        simpa using hd.symm
      · intro i hi; cases hi

/-! ### Helper lemmas: `taskLoop` -/

/-- A non-positive loop variable exits the task loop at once. -/
theorem taskLoop_nonpos (c : Params) (t : PyTask) (od : Value) (r : Int)
    (fuel : Nat) (h : r ≤ 0) :
    taskLoop c t od r fuel = some ([], none, r) := by
  unfold taskLoop
  rw [if_neg (by omega)]

/-- With a positive loop variable and no fuel, the loop is cut off. -/
theorem taskLoop_zero_pos (c : Params) (t : PyTask) (od : Value) (r : Int)
    (h : 0 < r) : taskLoop c t od r 0 = none := by
  unfold taskLoop
  rw [if_pos h]

/-- One unfolding of the task loop with a positive loop variable. -/
theorem taskLoop_succ_pos (c : Params) (t : PyTask) (od : Value) (r : Int)
    (fuel : Nat) (h : 0 < r) :
    taskLoop c t od r (fuel + 1)
      = match mkSampleParams c t od r with
        | .error e => some ([], some e, r)
        | .ok p =>
          match taskLoop c t od (r - p.num_samples) fuel with
          | none => none
          | some (evs, err, fin) => some (Event.sample p :: evs, err, fin) := by
  conv_lhs => unfold taskLoop
  rw [if_pos h]

/-- Under a well-formed configuration, one loop body builds exactly the
request `sampleOf d m sc st su od (min B remaining) (N - remaining)` —
the batch size is `min(batch_size, remaining)` and the offset is
`num_samples - remaining`. -/
theorem mkSampleParams_spec (c : Params) (t : PyTask) (od : Value)
    (B N : Int) (d m : PyStr) (sc st su : Value)
    (hbs : pyLookup c "batch_size" = some (.vInt B))
    (hd : pyLookup c "datadir" = some (.vStr d))
    (hm : pyLookup t "motif_name" = some (.vStr m))
    (hsc : pyLookup c "scale" = some sc)
    (hst : pyLookup c "strength" = some st)
    (hns : pyLookup c "num_samples" = some (.vInt N))
    (hsu : pyLookup c "structures" = some su)
    (r : Int) :
    mkSampleParams c t od r
      = .ok (sampleOf d m sc st su od (min B r) (N - r)) := by
  simp [mkSampleParams, hbs, hd, hm, hsc, hst, hns, hsu, sampleOf, valueStr]

/-- Under a well-formed configuration, the task loop is the numeric
skeleton `specLoop` with each `(batch, offset)` pair wrapped into its
sample event; it never raises. -/
theorem taskLoop_eq (c : Params) (t : PyTask) (od : Value) (B N : Int)
    (d m : PyStr) (sc st su : Value)
    (hbs : pyLookup c "batch_size" = some (.vInt B))
    (hd : pyLookup c "datadir" = some (.vStr d))
    (hm : pyLookup t "motif_name" = some (.vStr m))
    (hsc : pyLookup c "scale" = some sc)
    (hst : pyLookup c "strength" = some st)
    (hns : pyLookup c "num_samples" = some (.vInt N))
    (hsu : pyLookup c "structures" = some su) :
    ∀ (fuel : Nat) (r : Int),
      taskLoop c t od r fuel = (specLoop B N fuel r).map
        (fun q => (q.1.map
          (fun bo => Event.sample (sampleOf d m sc st su od bo.1 bo.2)),
          none, q.2)) := by
  intro fuel
  induction fuel with
  | zero =>
    intro r
    by_cases hr : 0 < r
    · rw [taskLoop_zero_pos c t od r hr, specLoop_zero_pos B N r hr]
      rfl
    · rw [taskLoop_nonpos c t od r 0 (by omega),
        specLoop_nonpos B N 0 r (by omega)]
      rfl
  | succ fuel ih =>
    intro r
    by_cases hr : 0 < r
    · rw [taskLoop_succ_pos c t od r fuel hr, specLoop_succ_pos B N fuel r hr,
        mkSampleParams_spec c t od B N d m sc st su hbs hd hm hsc hst hns hsu r]
      simp only []
      rw [show (sampleOf d m sc st su od (min B r) (N - r)).num_samples
          = min B r from rfl]
      rw [ih (r - min B r)]
      cases specLoop B N fuel (r - min B r) with
      | none => rfl
      | some q => rfl
    · rw [taskLoop_nonpos c t od r _ (by omega),
        specLoop_nonpos B N _ r (by omega)]
      rfl

/-- The sample event carrying `sampleOf` at a `(batch, offset)` pair. -/
def sampleEvent (d m : PyStr) (sc st su od : Value) (bo : Int × Int) : Event :=
  Event.sample (sampleOf d m sc st su od bo.1 bo.2)

/-! ### Claim C1: the per-task batching schedule -/

/-- C1: for a task run by `execute` under a well-formed configuration
with `num_samples = N ≥ 1` and `batch_size = B ≥ 1` (and enough fuel to
cover the loop), the sampler is invoked exactly `⌈N/B⌉` times; invocation
`i` requests `min B (N - B*i)` — that is, `min(batch_size, remaining)`,
never more than `B`; the requested counts sum exactly to `N`; and the
offsets passed are `0, B, 2B, ...`, each equal to the sum of the
previously requested counts (= `N` minus the remaining count before that
batch), strictly increasing and always strictly below `N`. -/
theorem sampler_batching (c : Params) (t : PyTask) (od : Value) (B N : Int)
    (d m : PyStr) (sc st su : Value) (fuel : Nat)
    (hod : pyLookup c "outdir" = some od)
    (hns : pyLookup c "num_samples" = some (.vInt N))
    (hbs : pyLookup c "batch_size" = some (.vInt B))
    (hd : pyLookup c "datadir" = some (.vStr d))
    (hm : pyLookup t "motif_name" = some (.vStr m))
    (hsc : pyLookup c "scale" = some sc)
    (hst : pyLookup c "strength" = some st)
    (hsu : pyLookup c "structures" = some su)
    (hN : 1 ≤ N) (hB : 1 ≤ B) (hfuel : N.toNat ≤ fuel) :
    ∃ evs, runTask c t fuel = some (evs, none) ∧
      evs.length = (N.toNat + (B.toNat - 1)) / B.toNat ∧
      (∀ i (hi : i < evs.length),
        evs.get ⟨i, hi⟩
          = Event.sample (sampleOf d m sc st su od (min B (N - B * i)) (B * i))) ∧
      (∀ i (hi : i < evs.length),
        evCount (evs.get ⟨i, hi⟩) = min B (N - B * i) ∧
        evCount (evs.get ⟨i, hi⟩) ≤ B ∧
        evOffset (evs.get ⟨i, hi⟩) = B * i ∧ B * (i : Int) < N) ∧
      (evs.map evCount).sum = N ∧
      (∀ i (hi : i < evs.length),
        evOffset (evs.get ⟨i, hi⟩) = ((evs.take i).map evCount).sum) ∧
      (∀ i j (hi : i < evs.length) (hj : j < evs.length), i < j →
        evOffset (evs.get ⟨i, hi⟩) < evOffset (evs.get ⟨j, hj⟩)) := by
  obtain ⟨l, hl, hlen, hget⟩ := specLoop_master B N hB fuel N (by omega) hfuel
  have heq : taskLoop c t od N fuel = (specLoop B N fuel N).map
      (fun q => (q.1.map (sampleEvent d m sc st su od), none, q.2)) :=
    taskLoop_eq c t od B N d m sc st su hbs hd hm hsc hst hns hsu fuel N
  rw [hl] at heq
  simp only [Option.map_some'] at heq
  have hce : ∀ bo : Int × Int,
      evCount (sampleEvent d m sc st su od bo) = bo.1 := fun _ => rfl
  have hoe : ∀ bo : Int × Int,
      evOffset (sampleEvent d m sc st su od bo) = bo.2 := fun _ => rfl
  have hcomp : evCount ∘ sampleEvent d m sc st su od = Prod.fst := rfl
  refine ⟨l.map (sampleEvent d m sc st su od), ?_, ?_, ?_, ?_, ?_, ?_, ?_⟩
  · simp [runTask, hod, hns, heq]
  · simpa using hlen
  · intro i hi
    have hi' : i < l.length := by simpa using hi
    simp only [List.get_eq_getElem, List.getElem_map]
    rw [show l[i] = l.get ⟨i, hi'⟩ from rfl, (hget i hi').1]
    simp [sampleEvent]
  · intro i hi
    have hi' : i < l.length := by simpa using hi
    have hbd := (hget i hi').2
    simp only [List.get_eq_getElem, List.getElem_map, hce, hoe]
    rw [show l[i] = l.get ⟨i, hi'⟩ from rfl, (hget i hi').1]
    refine ⟨rfl, min_le_left _ _, by simp, hbd⟩
  · rw [List.map_map, hcomp]
    have hs := specLoop_sum B N fuel N l 0 hl
    omega
  · intro i hi
    have hi' : i < l.length := by simpa using hi
    have h1 := specLoop_offset_take B N fuel N l 0 hl i hi'
    simp only [List.get_eq_getElem, List.getElem_map, hoe] at h1 ⊢
    rw [← List.map_take, List.map_map, hcomp]
    rw [h1]
    simp
  · intro i j hi hj hij
    have hi' : i < l.length := by simpa using hi
    have hj' : j < l.length := by simpa using hj
    simp only [List.get_eq_getElem, List.getElem_map, hoe]
    rw [show l[i] = l.get ⟨i, hi'⟩ from rfl, (hget i hi').1,
      show l[j] = l.get ⟨j, hj'⟩ from rfl, (hget j hj').1]
    simp only []
    have : ((i : Int)) < (j : Int) := by exact_mod_cast hij
    have := mul_lt_mul_of_pos_left this (show (0:Int) < B by omega)
    simpa using this

/-- C1 at a concrete input: `num_samples = 5`, `batch_size = 2` issue
batches `[2, 2, 1]` at offsets `[0, 2, 4]`. -/
theorem sampler_batching_witness :
    pyLookup demoParams "outdir" = some (.vStr "out".toList) ∧
    pyLookup demoParams "num_samples" = some (.vInt 5) ∧
    pyLookup demoParams "batch_size" = some (.vInt 2) ∧
    pyLookup demoParams "datadir" = some (.vStr "data".toList) ∧
    pyLookup demoTask "motif_name" = some (.vStr "1prw".toList) ∧
    pyLookup demoParams "scale" = some (.vInt 1) ∧
    pyLookup demoParams "strength" = some (.vInt 0) ∧
    pyLookup demoParams "structures" = some .vNone ∧
    (1 : Int) ≤ 5 ∧ (1 : Int) ≤ 2 ∧ (5 : Int).toNat ≤ 5 ∧
    ∃ evs, runTask demoParams demoTask 5 = some (evs, none) ∧
      evs.length = ((5 : Int).toNat + ((2 : Int).toNat - 1)) / (2 : Int).toNat ∧
      (∀ i (hi : i < evs.length),
        evs.get ⟨i, hi⟩ = Event.sample (sampleOf "data".toList "1prw".toList
          (.vInt 1) (.vInt 0) .vNone (.vStr "out".toList)
          (min 2 (5 - 2 * i)) (2 * i))) ∧
      (∀ i (hi : i < evs.length),
        evCount (evs.get ⟨i, hi⟩) = min (2 : Int) (5 - 2 * i) ∧
        evCount (evs.get ⟨i, hi⟩) ≤ 2 ∧
        evOffset (evs.get ⟨i, hi⟩) = 2 * i ∧ 2 * (i : Int) < 5) ∧
      (evs.map evCount).sum = 5 ∧
      (∀ i (hi : i < evs.length),
        evOffset (evs.get ⟨i, hi⟩) = ((evs.take i).map evCount).sum) ∧
      (∀ i j (hi : i < evs.length) (hj : j < evs.length), i < j →
        evOffset (evs.get ⟨i, hi⟩) < evOffset (evs.get ⟨j, hj⟩)) := by
  refine ⟨by decide, by decide, by decide, by decide, by decide, by decide,
    by decide, by decide, by decide, by decide, by decide, ?_⟩
  exact sampler_batching demoParams demoTask (.vStr "out".toList) 2 5
    "data".toList "1prw".toList (.vInt 1) (.vInt 0) .vNone 5
    (by decide) (by decide) (by decide) (by decide) (by decide) (by decide)
    (by decide) (by decide) (by decide) (by decide) (by decide)

/-! ### Claim C6: termination of the per-task while loop -/

/-- `demoParams` with a negative `num_samples`. -/
def negParams : Params :=
  [("rootdir", .vStr "results".toList), ("name", .vStr "base".toList),
   ("epoch", .vInt 40), ("scale", .vInt 1), ("strength", .vInt 0),
   ("outdir", .vStr "out".toList), ("num_samples", .vInt (-1)),
   ("batch_size", .vInt 2), ("datadir", .vStr "data".toList),
   ("structures", .vNone)]

/-- C6, counterexample to the claim as stated: with `batch_size = 2 ≥ 1`
and the integer `num_samples = -1`, the `while num_samples > 0` loop
terminates immediately — but its final remaining count is `-1`, not `0`:
for negative quotas the iteration does *not* end by the remaining count
reaching 0. -/
theorem task_loop_negative_exit_cex :
    runTask negParams demoTask 0 = some ([], none) ∧
    taskLoop negParams demoTask (Value.vStr "out".toList) (-1) 0
      = some ([], none, -1) ∧
    ((-1 : Int) = 0 → False) := by
  refine ⟨by decide, by decide, by decide⟩

/-- C6 as amended: under a well-formed configuration with
`batch_size = B ≥ 1`, the per-task `while` loop terminates for *every*
integer `num_samples = N` (with fuel `N.toNat` iterations suffice) and
never raises; it exits with remaining count `≤ 0` — exactly `0` whenever
`N ≥ 0`, while a negative `N` performs no iterations and exits with the
remaining count still `N < 0`. -/
theorem task_loop_terminates (c : Params) (t : PyTask) (od : Value)
    (B N : Int) (d m : PyStr) (sc st su : Value) (fuel : Nat)
    (hbs : pyLookup c "batch_size" = some (.vInt B))
    (hd : pyLookup c "datadir" = some (.vStr d))
    (hm : pyLookup t "motif_name" = some (.vStr m))
    (hsc : pyLookup c "scale" = some sc)
    (hst : pyLookup c "strength" = some st)
    (hns : pyLookup c "num_samples" = some (.vInt N))
    (hsu : pyLookup c "structures" = some su)
    (hB : 1 ≤ B) (hfuel : N.toNat ≤ fuel) :
    ∃ evs fin, taskLoop c t od N fuel = some (evs, none, fin) ∧ fin ≤ 0 ∧
      (0 ≤ N → fin = 0) ∧ (N < 0 → fin = N ∧ evs = []) := by
  by_cases h0 : 0 ≤ N
  · obtain ⟨l, hl, -, -⟩ := specLoop_master B N hB fuel N h0 hfuel
    have heq : taskLoop c t od N fuel = (specLoop B N fuel N).map
        (fun q => (q.1.map (sampleEvent d m sc st su od), none, q.2)) :=
      taskLoop_eq c t od B N d m sc st su hbs hd hm hsc hst hns hsu fuel N
    rw [hl] at heq
    simp only [Option.map_some'] at heq
    exact ⟨_, 0, heq, le_rfl, fun _ => rfl, fun hneg => absurd h0 (by omega)⟩
  · exact ⟨[], N, taskLoop_nonpos c t od N fuel (by omega), by omega,
      fun hge => absurd hge h0, fun _ => ⟨rfl, rfl⟩⟩

/-- C6 (amended) at a concrete input: `num_samples = -1` terminates at
once with remaining count `-1`. -/
theorem task_loop_terminates_witness :
    pyLookup negParams "batch_size" = some (.vInt 2) ∧
    pyLookup negParams "datadir" = some (.vStr "data".toList) ∧
    pyLookup demoTask "motif_name" = some (.vStr "1prw".toList) ∧
    pyLookup negParams "scale" = some (.vInt 1) ∧
    pyLookup negParams "strength" = some (.vInt 0) ∧
    pyLookup negParams "num_samples" = some (.vInt (-1)) ∧
    pyLookup negParams "structures" = some .vNone ∧
    (1 : Int) ≤ 2 ∧ (-1 : Int).toNat ≤ 0 ∧
    ∃ evs fin, taskLoop negParams demoTask (.vStr "out".toList) (-1) 0
        = some (evs, none, fin) ∧ fin ≤ 0 ∧
      ((0 : Int) ≤ -1 → fin = 0) ∧ ((-1 : Int) < 0 → fin = -1 ∧ evs = []) := by
  refine ⟨by decide, by decide, by decide, by decide, by decide, by decide,
    by decide, by decide, by decide, ?_⟩
  exact task_loop_terminates negParams demoTask (.vStr "out".toList) 2 (-1)
    "data".toList "1prw".toList (.vInt 1) (.vInt 0) .vNone 0
    (by decide) (by decide) (by decide) (by decide) (by decide) (by decide)
    (by decide) (by decide) (by decide)

/-! ### Claim C7: the model loads exactly once per worker -/

/-- The while loop emits only sample events, never a load. -/
theorem taskLoop_no_load (c : Params) (t : PyTask) (od : Value) :
    ∀ (fuel : Nat) (r : Int) (evs : List Event) (err : Option PyError)
      (fin : Int), taskLoop c t od r fuel = some (evs, err, fin) →
        evs.countP isLoad = 0 := by
  intro fuel
  induction fuel with
  | zero =>
    intro r evs err fin h
    by_cases hr : 0 < r
    · rw [taskLoop_zero_pos c t od r hr] at h; cases h
    · rw [taskLoop_nonpos c t od r 0 (by omega)] at h
      simp only [Option.some.injEq, Prod.mk.injEq] at h
      obtain ⟨h1, -⟩ := h
      subst h1
      rfl
  | succ fuel ih =>
    intro r evs err fin h
    by_cases hr : 0 < r
    · rw [taskLoop_succ_pos c t od r fuel hr] at h
      cases hmk : mkSampleParams c t od r with
      | error e =>
        rw [hmk] at h
        simp only [Option.some.injEq, Prod.mk.injEq] at h
        obtain ⟨h1, -⟩ := h
        subst h1
        rfl
      | ok p =>
        rw [hmk] at h
        have h' : (match taskLoop c t od (r - p.num_samples) fuel with
            | none => none
            | some (evs, err, fin) =>
              some (Event.sample p :: evs, err, fin)) = some (evs, err, fin) := h
        cases heq : taskLoop c t od (r - p.num_samples) fuel with
        | none => rw [heq] at h'; cases h'
        | some q =>
          obtain ⟨evs', err', fin'⟩ := q
          rw [heq] at h'
          simp only [Option.some.injEq, Prod.mk.injEq] at h'
          obtain ⟨h1, -⟩ := h'
          subst h1
          have hrec := ih (r - p.num_samples) evs' err' fin' heq
          simp [List.countP_cons, isLoad, hrec]
    · rw [taskLoop_nonpos c t od r _ (by omega)] at h
      simp only [Option.some.injEq, Prod.mk.injEq] at h
      obtain ⟨h1, -⟩ := h
      subst h1
      rfl

/-- One task iteration emits only sample events, never a load. -/
theorem runTask_no_load (c : Params) (t : PyTask) (fuel : Nat)
    (evs : List Event) (err : Option PyError)
    (h : runTask c t fuel = some (evs, err)) :
    evs.countP isLoad = 0 := by
  unfold runTask at h
  cases hod : pyLookup c "outdir" with
  | none =>
    rw [hod] at h
    simp only [Option.some.injEq, Prod.mk.injEq] at h
    obtain ⟨h1, -⟩ := h
    subst h1
    rfl
  | some od =>
    rw [hod] at h
    cases hns : pyLookup c "num_samples" with
    | none =>
      rw [hns] at h
      simp only [Option.some.injEq, Prod.mk.injEq] at h
      obtain ⟨h1, -⟩ := h
      subst h1
      rfl
    | some v =>
      rw [hns] at h
      cases v with
      | vInt n =>
        have h' : Option.map (fun r => (r.1, r.2.1)) (taskLoop c t od n fuel)
            = some (evs, err) := h
        cases htl : taskLoop c t od n fuel with
        | none => rw [htl] at h'; cases h'
        | some q =>
          obtain ⟨evs', err', fin'⟩ := q
          rw [htl] at h'
          simp only [Option.map_some', Option.some.injEq, Prod.mk.injEq] at h'
          obtain ⟨h1, -⟩ := h'
          subst h1
          exact taskLoop_no_load c t od fuel n evs' err' fin' htl
      | vStr s =>
        simp only [Option.some.injEq, Prod.mk.injEq] at h
        obtain ⟨h1, -⟩ := h
        subst h1
        rfl
      | vNone =>
        simp only [Option.some.injEq, Prod.mk.injEq] at h
        obtain ⟨h1, -⟩ := h
        subst h1
        rfl
      | vList l =>
        simp only [Option.some.injEq, Prod.mk.injEq] at h
        obtain ⟨h1, -⟩ := h
        subst h1
        rfl

/-- The whole task iteration of a shard emits only sample events. -/
theorem runTasks_no_load (c : Params) :
    ∀ (tasks : List PyTask) (fuel : Nat) (evs : List Event)
      (err : Option PyError), runTasks c tasks fuel = some (evs, err) →
        evs.countP isLoad = 0 := by
  intro tasks
  induction tasks with
  | nil =>
    intro fuel evs err h
    simp only [runTasks, Option.some.injEq, Prod.mk.injEq] at h
    obtain ⟨h1, -⟩ := h
    subst h1
    rfl
  | cons t ts ih =>
    intro fuel evs err h
    unfold runTasks at h
    cases hrt : runTask c t fuel with
    | none => rw [hrt] at h; cases h
    | some q =>
      obtain ⟨evs1, err1⟩ := q
      rw [hrt] at h
      cases err1 with
      | some e =>
        simp only [Option.some.injEq, Prod.mk.injEq] at h
        obtain ⟨h1, -⟩ := h
        subst h1
        exact runTask_no_load c t fuel evs1 (some e) hrt
      | none =>
        cases hrts : runTasks c ts fuel with
        | none => rw [hrts] at h; cases h
        | some q2 =>
          obtain ⟨evs2, err2⟩ := q2
          rw [hrts] at h
          simp only [Option.some.injEq, Prod.mk.injEq] at h
          obtain ⟨h1, -⟩ := h
          subst h1
          rw [List.countP_append,
            runTask_no_load c t fuel evs1 none hrt,
            ih fuel evs2 err2 hrts]

/-- C7: for every shard — of any length, the empty one included — a
terminating `execute` run under a configuration holding the model keys
calls `load_pretrained_model` exactly once, as the very first observable
action, before any task is processed; no load ever happens per task. -/
theorem execute_loads_model_once (c : Params) (tasks : List PyTask)
    (device : String) (fuel : Nat) (rd nm ep : Value)
    (hrd : pyLookup c "rootdir" = some rd)
    (hnm : pyLookup c "name" = some nm)
    (hep : pyLookup c "epoch" = some ep)
    (evs : List Event) (err : Option PyError)
    (hex : execute c tasks device fuel = some (evs, err)) :
    evs.head? = some (Event.load rd nm ep device) ∧
    evs.countP isLoad = 1 := by
  unfold execute at hex
  rw [hrd, hnm, hep] at hex
  cases hrt : runTasks c tasks fuel with
  | none => rw [hrt] at hex; cases hex
  | some q =>
    obtain ⟨evs', err'⟩ := q
    rw [hrt] at hex
    simp only [Option.some.injEq, Prod.mk.injEq] at hex
    obtain ⟨h1, -⟩ := hex
    subst h1
    refine ⟨rfl, ?_⟩
    rw [List.countP_cons]
    rw [runTasks_no_load c tasks fuel evs' err' hrt]
    rfl

/-- The full observable trace of `execute` on `demoParams` with two
copies of the demo task: one load, then three batches per task. -/
def demoTrace : List Event :=
  Event.load (.vStr "results".toList) (.vStr "base".toList) (.vInt 40)
    "cuda:0" ::
  ([((2 : Int), (0 : Int)), (2, 2), (1, 4), (2, 0), (2, 2), (1, 4)].map
    (fun bo => sampleEvent "data".toList "1prw".toList (.vInt 1) (.vInt 0)
      Value.vNone (.vStr "out".toList) bo))

/-- C7 at a concrete input: a two-task shard still loads the model
exactly once, and that load heads the trace. -/
theorem execute_loads_model_once_witness :
    pyLookup demoParams "rootdir" = some (.vStr "results".toList) ∧
    pyLookup demoParams "name" = some (.vStr "base".toList) ∧
    pyLookup demoParams "epoch" = some (.vInt 40) ∧
    execute demoParams [demoTask, demoTask] "cuda:0" 5
      = some (demoTrace, none) ∧
    (demoTrace.head? = some (Event.load (.vStr "results".toList)
      (.vStr "base".toList) (.vInt 40) "cuda:0") ∧
     demoTrace.countP isLoad = 1) := by
  refine ⟨by decide, by decide, by decide, by decide, ?_⟩
  exact execute_loads_model_once demoParams [demoTask, demoTask] "cuda:0" 5
    (.vStr "results".toList) (.vStr "base".toList) (.vInt 40)
    (by decide) (by decide) (by decide) demoTrace none (by decide)
